import Mathlib

/-!
Verification development for the cloud-pricing ingestion/normalization/history
engine (`backend/cloud_pricing/tasks.py` and `backend/cloud_pricing/models.py`).

The SQL statements built by `_return_sql_insert_normalized`,
`_return_sql_check_updates_normalized` and `_return_sql_string_raw`, and the
orchestration in `weekly_pricing_dump_update`, are shallowly embedded as
executable Lean functions over explicit table states.

Modelling conventions:
* SQL `numeric` values are rationals (`Rat`); nullable columns are `Option`.
* A text column holding JSON is modelled as `Option Jsonb`: `some j` is text
  whose `::jsonb` cast succeeds and parses to `j`, `none` is text whose cast
  raises (PostgreSQL aborts the whole statement, modelled by `Except.error`).
* Scalar JSON leaves are kept in their `->>` text form (`jstr`), since the SQL
  only ever reads scalars through the text extraction operator `->>`.
* Timestamp columns (`NOW()`, `created_at`, ...) carry no information the
  verified properties depend on and are omitted, as are derived columns no
  statement reads back (`vcpu_count`, `memory_gb`, `storage_type`,
  `domain_label` via the external SQL function `classify_domain`).
-/

/-- Lowercase a single character, as SQL `LOWER` does for ASCII. -/
def lowerChar (c : Char) : Char :=
  if c.toNat ≥ 65 ∧ c.toNat ≤ 90 then Char.ofNat (c.toNat + 32) else c

/-- SQL `LOWER` on a text value. -/
def lowerStr (s : String) : String :=
  String.mk (s.data.map lowerChar)

/-- Substring containment on character lists (the SQL pattern `%a%`). -/
def subOf (needle : List Char) : List Char → Bool
  | [] => needle.isEmpty
  | c :: t => needle.isPrefixOf (c :: t) || subOf needle t

/-- `LIKE '%a%'` on text. -/
def likeSub (needle s : String) : Bool :=
  subOf needle.data s.data

/-- The two-gap SQL pattern `%a%b%`: some occurrence of `a` followed later by `b`. -/
def subSub (a b : List Char) : List Char → Bool
  | [] => a.isEmpty && b.isEmpty
  | c :: t => (a.isPrefixOf (c :: t) && subOf b ((c :: t).drop a.length)) || subSub a b t

/-- `LIKE '%a%b%'` on text. -/
def likeSubSub (a b s : String) : Bool :=
  subSub a.data b.data s.data

/-- `LIKE 'a%b'` on text (anchored at both ends, e.g. `'Commit%Yr'`). -/
def likeWrap (a b s : String) : Bool :=
  a.data.isPrefixOf s.data && b.data.reverse.isPrefixOf s.data.reverse

/-- `regexp_replace(s, '\D', '', 'g')`: keep only digits. -/
def keepDigits (s : String) : String :=
  String.mk (s.data.filter Char.isDigit)

/-- `regexp_replace(s, '[^0-9\.]', '', 'g')`: keep digits and dots. -/
def keepDigitsDot (s : String) : String :=
  String.mk (s.data.filter (fun c => c.isDigit || c = '.'))

/-- Value of a digit character. -/
def digitVal (c : Char) : Nat := c.toNat - 48

/-- Accumulate a digit string into a natural number. -/
def natFromDigits (cs : List Char) : Nat :=
  cs.foldl (fun a c => a * 10 + digitVal c) 0

/-- `NULLIF(s, '')::numeric` applied to an all-digit string `s`. -/
def digitsToNumeric (s : String) : Option Rat :=
  if s.data.isEmpty then none else some (natFromDigits s.data : Rat)

/-- Core decimal scanner for the `::numeric` cast: digits with at most one dot.
`acc` is the value read so far scaled to an integer, `den` the scale
(`none` before the dot), `seen` whether any digit was read. -/
def parseDecCore : List Char → Nat → Option Nat → Bool → Option Rat
  | [], acc, den, seen =>
      if seen then some ((acc : Rat) / ((den.getD 1 : Nat) : Rat)) else none
  | c :: cs, acc, den, seen =>
      if c.isDigit then
        match den with
        | none => parseDecCore cs (acc * 10 + digitVal c) none true
        | some d => parseDecCore cs (acc * 10 + digitVal c) (some (d * 10)) true
      else if c = '.' then
        match den with
        | none => parseDecCore cs acc (some 1) seen
        | some _ => none
      else none

/-- PostgreSQL `::numeric` on text: optional sign, decimal digits, optional
fraction; anything else raises (modelled as `none`). -/
def parseNumeric (s : String) : Option Rat :=
  match s.data with
  | '-' :: rest => (parseDecCore rest 0 none false).map (fun q => -q)
  | '+' :: rest => parseDecCore rest 0 none false
  | cs => parseDecCore cs 0 none false

/-- `(x)::numeric` on a nullable text value: `NULL` casts to `NULL`, non-numeric
text aborts the statement. -/
def castNumericOpt (x : Option String) : Except String (Option Rat) :=
  match x with
  | none => .ok none
  | some s =>
      match parseNumeric s with
      | some q => .ok (some q)
      | none => .error "invalid input syntax for type numeric"

/-- PostgreSQL `::integer` on all-digit text (with optional sign). -/
def castIntOpt (x : Option String) : Except String (Option Int) :=
  match x with
  | none => .ok none
  | some s =>
      match s.data with
      | [] => .error "invalid input syntax for type integer"
      | cs =>
        if cs.all Char.isDigit then .ok (some (natFromDigits cs : Int))
        else .error "invalid input syntax for type integer"

/-- Statement-level traversal: evaluate a fallible computation on every list
element, aborting the whole statement on the first error (explicit recursion
so that proofs can peel one element at a time). -/
def exMapM (f : α → Except String β) : List α → Except String (List β)
  | [] => .ok []
  | a :: t => do
      let b ← f a
      let bs ← exMapM f t
      .ok (b :: bs)

/-- `ROUND(q, 2)` on `numeric`: half away from zero at two decimals. -/
def round2 (q : Rat) : Rat :=
  if q ≥ 0 then ((⌊q * 100 + 1/2⌋ : Int) : Rat) / 100
  else -(((⌊-q * 100 + 1/2⌋ : Int) : Rat) / 100)

/-- Does a string start with the given pattern (used on run status strings). -/
def strStartsWith (p s : String) : Bool :=
  p.data.isPrefixOf s.data

/-! ### JSON values

jsonb values as the SQL reads them: objects, arrays, text leaves
(`->>` always extracts the text form of a scalar) and null. -/

inductive Jsonb where
  | jnull : Jsonb
  | jstr : String → Jsonb
  | jarr : List Jsonb → Jsonb
  | jobj : List (String × Jsonb) → Jsonb

/-- Field lookup in a jsonb object (first binding wins). -/
def jlookup : List (String × Jsonb) → String → Option Jsonb
  | [], _ => none
  | (k, v) :: rest, key => if k = key then some v else jlookup rest key

/-- `j ->> key`: text of the named field, SQL NULL on a missing field, a JSON
null, a non-object or a composite value. -/
def jgetText (j : Jsonb) (key : String) : Option String :=
  match j with
  | .jobj fs =>
      match jlookup fs key with
      | some (.jstr s) => some s
      | _ => none
  | _ => none

/-- `jsonb_array_elements(v)`: aborts the statement on a non-array. -/
def arrItems : Jsonb → Except String (List Jsonb)
  | .jarr xs => .ok xs
  | _ => .error "cannot extract elements of a scalar"

/-- `jsonb_each(prices)` followed by `jsonb_array_elements(value)`: one price
element per entry of each top-level array. Aborts on a non-object or on a
non-array top-level value. -/
def priceElems : Jsonb → Except String (List Jsonb)
  | .jobj fs => do
      let lists ← exMapM (fun kv => arrItems kv.2) fs
      .ok lists.flatten
  | _ => .error "cannot deconstruct a scalar"

/-! ### Staging table and reference tables -/

/-- A row of the `infracost_staging_prices` staging table (columns as created
by `_create_and_load_staging`). `attributes` and `prices` are text columns
holding JSON; `none` models text whose `::jsonb` cast raises. -/
structure StagedRow where
  producthash : String
  sku : String
  vendorname : String
  region : String
  service : String
  product_family : String
  attributes : Option Jsonb
  prices : Option Jsonb

/-- Canonical reference tables, each keyed by an id. `services` and `regions`
rows are `(id, provider_id, name)`; the rest are `(id, name-or-code)`. -/
structure Db where
  providers : List (Nat × String)
  services : List (Nat × Nat × String)
  regions : List (Nat × Nat × String)
  pricingModels : List (Nat × String)
  currencies : List (Nat × String)
  nextId : Nat

/-- Look up an id by unique name. -/
def lookupByName (rows : List (Nat × String)) (name : String) : Option Nat :=
  (rows.find? (fun r => r.2 == name)).map (fun r => r.1)

/-- Look up an id by `(provider_id, name)`. -/
def lookupScoped (rows : List (Nat × Nat × String)) (pid : Nat) (name : String) : Option Nat :=
  (rows.find? (fun r => r.2.1 == pid && r.2.2 == name)).map (fun r => r.1)

/-! ### Stage 1 of `_return_sql_insert_normalized` (CTE `normalized_input_stage1`) -/

/-- Unit spellings classified as `Hour` (matched on `LOWER(unit)`). -/
def hourUnitsLower : List String := ["hrs", "hours", "hour", "1 hour", "1/hour", "gibibyte/hour"]

/-- Unit spellings classified as `Month` (matched on `LOWER(unit)`). -/
def monthUnitsLower : List String := ["month", "1/month", "user-month", "gibibyte month"]

/-- Unit spellings classified as `GB` (matched on `LOWER(unit)`). -/
def gbUnitsLower : List String := ["1 gb/month", "1 gb", "gibibyte"]

/-- Unit spellings classified as `Unit` (matched case-sensitively). -/
def unitTokens : List String := ["1", "100", "1K", "10K", "1M", "1B", "Quantity"]

/-- `LOWER(x) IN (list)` on a nullable text value (NULL compares false). -/
def optLowerIn (x : Option String) (l : List String) : Bool :=
  match x with
  | none => false
  | some s => l.contains (lowerStr s)

/-- `x IN (list)` on a nullable text value. -/
def optIn (x : Option String) (l : List String) : Bool :=
  match x with
  | none => false
  | some s => l.contains s

/-- `LOWER(x) = 'lit'` on a nullable text value. -/
def optLowerEq (x : Option String) (lit : String) : Bool :=
  match x with
  | none => false
  | some s => lowerStr s == lit

/-- The term-extraction fallback from `purchaseOption` (`Commit3Yr` → `3yr`). -/
def extractTermFromPurchaseOption (po : Option String) : Option String :=
  match po with
  | none => none
  | some p =>
      if likeWrap "Commit" "Yr" p then some (keepDigitsDot p ++ "yr")
      else if likeWrap "Commit" "Mo" p then some (keepDigitsDot p ++ "mo")
      else none

/-- Did the unified term extraction find a term (the disjunction guarding the
`pricing_model_id` CASE)? -/
def termWasExtracted (termLength po : Option String) : Bool :=
  (match termLength with | some t => t != "" | none => false) ||
  (match po with | some p => likeWrap "Commit" "Yr" p || likeWrap "Commit" "Mo" p | none => false)

/-- `extracted_term_length`: `termLength` if present and non-empty, else the
`Commit%Yr` / `Commit%Mo` extraction, else NULL. -/
def extractedTermLengthOf (termLength po : Option String) : Option String :=
  match termLength with
  | some t => if t != "" then some t else extractTermFromPurchaseOption po
  | none => extractTermFromPurchaseOption po

/-- `normalized_price_unit`: the unit-classification CASE. -/
def normalizedPriceUnitOf (unit : Option String) : Option String :=
  if optLowerIn unit hourUnitsLower then some "Hour"
  else if optLowerIn unit monthUnitsLower then some "Month"
  else if optLowerIn unit gbUnitsLower then some "GB"
  else if optIn unit unitTokens then some "Unit"
  else if optLowerEq unit "1/day" then some "Day"
  else unit

/-- One row of the stage-1 CTE (columns the later stages read). -/
structure Stage1 where
  priceElem : Jsonb
  rawPrice : Option String
  priceUnitRaw : Option String
  termPurchaseOption : Option String
  termLengthYearRaw : Option String
  extractedTermLength : Option String
  pricingModelId : Option Nat
  normalizedPriceUnit : Option String
  pricePerHour : Option Rat
  pricePerDay : Option Rat
  pricePerMonth : Option Rat
  pricePerGb : Option Rat
  pricePerUnitCount : Option Rat

/-- `price_per_unit_count`: the unit-count pivot with its scale divisors,
applied to the already-cast `USD` value. -/
def pricePerUnitCountOf (unit : Option String) (usdq : Option Rat) : Option Rat :=
  if unit == some "Quantity" || optIn unit ["1", "100"] then usdq
  else if unit == some "1K" then usdq.map (fun p => p / 1000)
  else if unit == some "10K" then usdq.map (fun p => p / 10000)
  else if unit == some "1M" then usdq.map (fun p => p / 1000000)
  else if unit == some "1B" then usdq.map (fun p => p / 1000000000)
  else none

/-- Build the stage-1 row for one price element. The `pm` table is LEFT-joined
on `COALESCE(purchaseOption, 'on_demand')`, so a failed lookup yields NULL.
Every price pivot casts the same `USD` text (and stage 2 casts it again
unconditionally for `price_per_unit`, within the same statement), so the cast
is performed once here: the statement's failure behavior is identical. -/
def mkStage1 (db : Db) (elem : Jsonb) : Except String Stage1 :=
  let usd := jgetText elem "USD"
  let unit := jgetText elem "unit"
  let tpo := jgetText elem "termPurchaseOption"
  let tl := jgetText elem "termLength"
  let po := jgetText elem "purchaseOption"
  match castNumericOpt usd with
  | .error e => .error e
  | .ok usdq =>
      .ok {
        priceElem := elem
        rawPrice := usd
        priceUnitRaw := unit
        termPurchaseOption := tpo
        termLengthYearRaw := tl
        extractedTermLength := extractedTermLengthOf tl po
        pricingModelId :=
          if termWasExtracted tl po then none
          else lookupByName db.pricingModels ((po.getD "on_demand"))
        normalizedPriceUnit := normalizedPriceUnitOf unit
        pricePerHour := if optLowerIn unit hourUnitsLower then usdq else none
        pricePerDay := if optLowerEq unit "1/day" then usdq else none
        pricePerMonth := if optLowerIn unit monthUnitsLower then usdq else none
        pricePerGb := if optLowerIn unit gbUnitsLower then usdq else none
        pricePerUnitCount := pricePerUnitCountOf unit usdq }

/-! ### Stage 2 of `_return_sql_insert_normalized` (CTE `normalized_input`) -/

/-- `term_length_year_clean`: numeric years from the extracted term
(`%yr%` keeps the digits, `%mo%` keeps the digits and divides by 12). -/
def termLengthYearClean (extracted : Option String) : Option Rat :=
  match extracted with
  | none => none
  | some s =>
      if likeSub "yr" s then digitsToNumeric (keepDigits s)
      else if likeSub "mo" s then (digitsToNumeric (keepDigits s)).map (fun q => q / 12)
      else none

/-- The guard of the amortization branch (3A): a `Unit`/`Quantity` unit, a
present `termPurchaseOption` other than `'No Upfront'`, and a parsable term. -/
def amortizeCond (s1 : Stage1) : Bool :=
  (s1.normalizedPriceUnit == some "Unit" || s1.normalizedPriceUnit == some "Quantity") &&
  (match s1.termPurchaseOption with | some t => t != "No Upfront" | none => false) &&
  (termLengthYearClean s1.extractedTermLength).isSome

/-- `effective_price_per_hour`: amortize upfront fees over the term, else the
direct hourly/daily/monthly/GB conversions, else the COALESCE default `0.0`.
`ppu` is `raw_price::numeric`. A zero term makes the SQL division raise. -/
def effectivePricePerHourOf (s1 : Stage1) (ppu : Option Rat) : Except String Rat :=
  if amortizeCond s1 then
    match ppu, termLengthYearClean s1.extractedTermLength with
    | some p, some t =>
        if t * 8766 = 0 then .error "division by zero" else .ok (p / (t * 8766))
    | _, _ => .ok 0
  else if s1.pricePerHour.isSome then .ok (s1.pricePerHour.getD 0)
  else if s1.pricePerDay.isSome then .ok (s1.pricePerDay.getD 0 / 24)
  else if s1.pricePerMonth.isSome then .ok (s1.pricePerMonth.getD 0 / 730)
  else if s1.normalizedPriceUnit == some "GB" && s1.pricePerGb.isSome then
    .ok (s1.pricePerGb.getD 0 / 730)
  else .ok 0

/-- The convertibility indicator of the conditional price-unit CASE (`1.0` when
any conversion branch fires, `0.0` otherwise). -/
def convertibleInd (s1 : Stage1) : Bool :=
  amortizeCond s1 || s1.pricePerHour.isSome || s1.pricePerDay.isSome ||
  s1.pricePerMonth.isSome || (s1.normalizedPriceUnit == some "GB" && s1.pricePerGb.isSome)

/-- `price_unit`: keep the raw unit string exactly when no conversion applied. -/
def priceUnitSelect (s1 : Stage1) : Option String :=
  if convertibleInd s1 then none else s1.priceUnitRaw

/-- The effective-price derivation of one price element, as the insert
statement computes it (stage 1 columns, the `raw_price::numeric` cast of
stage 2, then the stage-2 CASE). -/
def deriveEffective (db : Db) (elem : Jsonb) : Except String Rat := do
  let s1 ← mkStage1 db elem
  let ppu ← castNumericOpt s1.rawPrice
  effectivePricePerHourOf s1 ppu

/-! ### The raw store (`_return_sql_string_raw` and `RawPricingData`) -/

/-- A row of `cloud_pricing_rawpricingdata`. `product_hash` is the unique key
(`unique=True` on `RawPricingData.product_hash`); `raw_json` stores the
staged `prices` payload verbatim. -/
structure RawRow where
  id : Nat
  product_hash : String
  raw_json : Jsonb
  source_api : String

/-- Does the raw table already hold this digest? -/
def hasHash (raws : List RawRow) (h : String) : Bool :=
  raws.any (fun r => r.product_hash == h)

/-- One step of the raw insert: `s.prices::jsonb::text` is computed for every
selected row (so a malformed payload aborts the statement even for a
conflicting row), then `ON CONFLICT (product_hash) DO NOTHING` skips rows
whose digest already exists and leaves the existing row unchanged. -/
def insertRawStep (acc : List RawRow) (s : StagedRow) : Except String (List RawRow) :=
  match s.prices with
  | none => .error "invalid input syntax for type json"
  | some pj =>
      if hasHash acc s.producthash then .ok acc
      else .ok (acc ++ [{ id := acc.length, product_hash := s.producthash,
                          raw_json := pj, source_api := "infracost" }])

/-- The raw-store insert over the whole staging table. -/
def insert_raw : List RawRow → List StagedRow → Except String (List RawRow)
  | raws, [] => .ok raws
  | raws, s :: t =>
      match insertRawStep raws s with
      | .ok acc => insert_raw acc t
      | .error e => .error e

/-! ### The normalized fact table (`normalized_pricing_data`) -/

/-- A row of `normalized_pricing_data` (the columns the embedded statements
write or read; timestamps and the derived attribute columns are omitted).
`term_length_year` is the legacy text column only the update statement of
`_return_sql_check_updates_normalized` touches. -/
structure NormRow where
  id : Nat
  provider_id : Nat
  service_id : Nat
  region_id : Nat
  pricing_model_id : Option Nat
  currency_id : Nat
  product_family : String
  instance_type : String
  operating_system : String
  tenancy : String
  price_per_unit : Option Rat
  price_unit : Option String
  description : String
  term_length_years : Option Rat
  raw_entry_id : Nat
  is_active : Bool
  source_api : String
  effective_price_per_hour : Option Rat
  is_all_upfront : Bool
  is_partial_upfront : Bool
  is_no_upfront : Bool
  term_length_year : Option String
deriving DecidableEq

/-- A fully derived candidate row of the CTE `normalized_input`, still keyed by
`product_hash` before the final join against the raw table. -/
structure NormCandidate where
  provider_id : Nat
  service_id : Nat
  region_id : Nat
  pricing_model_id : Option Nat
  currency_id : Nat
  product_family : String
  instance_type : String
  operating_system : String
  tenancy : String
  price_per_unit : Option Rat
  price_unit : Option String
  description : String
  term_length_years : Option Rat
  effective_price_per_hour : Option Rat
  is_all_upfront : Bool
  is_partial_upfront : Bool
  is_no_upfront : Bool
  product_hash : String
deriving DecidableEq

/-- Stage 2 for one stage-1 row: cast the attributes payload (a malformed one
aborts the statement), cast `raw_price::numeric`, and compute the derived
columns. -/
def mkNormCandidate (s : StagedRow) (pid sid rid cid : Nat) (s1 : Stage1) :
    Except String NormCandidate := do
  let attrs ←
    match s.attributes with
    | some a => Except.ok a
    | none => Except.error "invalid input syntax for type json"
  let ppu ← castNumericOpt s1.rawPrice
  let eff ← effectivePricePerHourOf s1 ppu
  .ok {
    provider_id := pid
    service_id := sid
    region_id := rid
    pricing_model_id := s1.pricingModelId
    currency_id := cid
    product_family := (jgetText attrs "instanceFamily").getD ""
    instance_type := (jgetText attrs "instanceType").getD ""
    operating_system := (jgetText attrs "operatingSystem").getD ""
    tenancy := (jgetText attrs "tenancy").getD ""
    price_per_unit := ppu
    price_unit := priceUnitSelect s1
    description := (jgetText s1.priceElem "description").getD ""
    term_length_years := termLengthYearClean s1.extractedTermLength
    effective_price_per_hour := some eff
    is_all_upfront := s1.termPurchaseOption == some "All Upfront"
    is_partial_upfront := s1.termPurchaseOption == some "Partial Upfront"
    is_no_upfront := s1.termPurchaseOption == some "No Upfront"
    product_hash := s.producthash }

/-- The candidate rows one staging row contributes: the lateral jsonb
deconstruction runs first (its failure aborts the statement even when the
joins would drop the row), then the inner joins on provider, service, region
and currency either resolve or drop the row, then the `WHERE USD IS NOT NULL`
filter and the per-element derivation. -/
def normCandidatesOfRow (db : Db) (s : StagedRow) :
    Except String (List NormCandidate) := do
  let pj ←
    match s.prices with
    | some pj => Except.ok pj
    | none => Except.error "invalid input syntax for type json"
  let elems ← priceElems pj
  match lookupByName db.providers (lowerStr s.vendorname) with
  | none => .ok []
  | some pid =>
      match lookupScoped db.services pid s.service,
            lookupScoped db.regions pid s.region,
            lookupByName db.currencies "USD" with
      | some sid, some rid, some cid =>
          exMapM
            (fun e => do
              let s1 ← mkStage1 db e
              mkNormCandidate s pid sid rid cid s1)
            (elems.filter (fun e => (jgetText e "USD").isSome))
      | _, _, _ => .ok []

/-- The final INSERT of `_return_sql_insert_normalized`: join each candidate
against the raw table on `product_hash` (a candidate without a raw row is
dropped), append the surviving rows as active facts with fresh ids, and
return the new table plus the inserted count. -/
def insert_normalized (db : Db) (raws : List RawRow) (norm : List NormRow)
    (staged : List StagedRow) : Except String (List NormRow × Nat) := do
  let cands ← exMapM (normCandidatesOfRow db) staged
  let joined := cands.flatten.flatMap (fun c =>
    (raws.filter (fun r => r.product_hash == c.product_hash)).map (fun r => (c, r.id)))
  let newRows := (List.range joined.length).zip joined |>.map (fun p =>
    { id := norm.length + p.1
      provider_id := p.2.1.provider_id
      service_id := p.2.1.service_id
      region_id := p.2.1.region_id
      pricing_model_id := p.2.1.pricing_model_id
      currency_id := p.2.1.currency_id
      product_family := p.2.1.product_family
      instance_type := p.2.1.instance_type
      operating_system := p.2.1.operating_system
      tenancy := p.2.1.tenancy
      price_per_unit := p.2.1.price_per_unit
      price_unit := p.2.1.price_unit
      description := p.2.1.description
      term_length_years := p.2.1.term_length_years
      raw_entry_id := p.2.2
      is_active := true
      source_api := "infracost"
      effective_price_per_hour := p.2.1.effective_price_per_hour
      is_all_upfront := p.2.1.is_all_upfront
      is_partial_upfront := p.2.1.is_partial_upfront
      is_no_upfront := p.2.1.is_no_upfront
      term_length_year := none : NormRow })
  .ok (norm ++ newRows, newRows.length)

/-! ### `_return_sql_check_updates_normalized`: change detection, history, update -/

/-- A row of the `normalized_input` CTE of the check-updates statement (note:
this CTE INNER-joins the pricing model on `COALESCE(purchaseOption,
'on_demand')` and keeps the raw `unit` text as `price_unit`). -/
structure CheckRow where
  provider_id : Nat
  service_id : Nat
  region_id : Nat
  pricing_model_id : Nat
  currency_id : Nat
  product_family : String
  instance_type : String
  operating_system : String
  tenancy : String
  price_per_unit : Option Rat
  price_unit : Option String
  description : String
  term_length_year : String
  vcpu_count : Option Int
  product_hash : String
deriving DecidableEq

/-- The check rows one staging row contributes. -/
def checkRowsOfRow (db : Db) (s : StagedRow) : Except String (List CheckRow) := do
  let pj ←
    match s.prices with
    | some pj => Except.ok pj
    | none => Except.error "invalid input syntax for type json"
  let elems ← priceElems pj
  match lookupByName db.providers (lowerStr s.vendorname) with
  | none => .ok []
  | some pid =>
      match lookupScoped db.services pid s.service,
            lookupScoped db.regions pid s.region,
            lookupByName db.currencies "USD" with
      | some sid, some rid, some cid => do
          let opts ← exMapM
            (fun e => do
              let attrs ←
                match s.attributes with
                | some a => Except.ok a
                | none => Except.error "invalid input syntax for type json"
              let ppu ← castNumericOpt (jgetText e "USD")
              let vcpu ← castIntOpt (jgetText attrs "vcpu")
              match lookupByName db.pricingModels
                  (((jgetText e "purchaseOption")).getD "on_demand") with
              | none => .ok none
              | some pmid =>
                  .ok (some {
                    provider_id := pid
                    service_id := sid
                    region_id := rid
                    pricing_model_id := pmid
                    currency_id := cid
                    product_family := (jgetText attrs "instanceFamily").getD ""
                    instance_type := (jgetText attrs "instanceType").getD ""
                    operating_system := (jgetText attrs "operatingSystem").getD ""
                    tenancy := (jgetText attrs "tenancy").getD ""
                    price_per_unit := ppu
                    price_unit := jgetText e "unit"
                    description := (jgetText e "description").getD ""
                    term_length_year :=
                      (match jgetText e "termLength" with
                       | some t => keepDigits t
                       | none => "")
                    vcpu_count := vcpu
                    product_hash := s.producthash }))
            (elems.filter (fun e => (jgetText e "USD").isSome))
          .ok (opts.filterMap id)
      | _, _, _ => .ok []

/-- All check rows of the staging table. -/
def checkRowsOfStaged (db : Db) (staged : List StagedRow) :
    Except String (List CheckRow) := do
  let rows ← exMapM (checkRowsOfRow db) staged
  .ok rows.flatten

/-- SQL equality on two nullable text values (`NULL = x` is not true). -/
def sqlEqOptStr (a b : Option String) : Bool :=
  match a, b with
  | some x, some y => x == y
  | _, _ => false

/-- SQL `<>` on two nullable numerics (`NULL <> x` is not true). -/
def sqlNeqOptRat (a b : Option Rat) : Bool :=
  match a, b with
  | some x, some y => x != y
  | _, _ => false

/-- The ten-column join condition of the `changed` and `updated_rows` CTEs.
`old.pricing_model_id` is nullable (the insert statement stores NULL for
extracted commitment terms) and a NULL never matches; `old.price_unit` is
NULL for every converted row, so those rows never match either. -/
def keysMatch (old : NormRow) (nw : CheckRow) : Bool :=
  old.provider_id == nw.provider_id &&
  old.service_id == nw.service_id &&
  old.region_id == nw.region_id &&
  (match old.pricing_model_id with
   | some pmid => pmid == nw.pricing_model_id
   | none => false) &&
  old.currency_id == nw.currency_id &&
  old.product_family == nw.product_family &&
  old.instance_type == nw.instance_type &&
  old.operating_system == nw.operating_system &&
  old.tenancy == nw.tenancy &&
  sqlEqOptStr old.price_unit nw.price_unit

/-- The `changed` CTE: every (old row, new row) pair that matches on the key
columns and differs in price. -/
def changedOf (norm : List NormRow) (crs : List CheckRow) : List (NormRow × CheckRow) :=
  norm.flatMap (fun old =>
    (crs.filter (fun nw =>
      keysMatch old nw && sqlNeqOptRat old.price_per_unit nw.price_per_unit)).map
      (fun nw => (old, nw)))

/-- A row of the `price_history` table as the history insert writes it
(`pricing_data_id`, `price_per_unit`, `change_percentage`; the timestamp is
omitted). -/
structure PriceHistoryRow where
  pricing_data_id : Nat
  price_per_unit : Option Rat
  change_percentage : Option Rat
deriving DecidableEq

/-- The history entry recorded for one changed pair: the new price, and the
percentage change rounded to two decimals (NULL when the old price is zero). -/
def mkHistoryRow (old : NormRow) (nw : CheckRow) : PriceHistoryRow :=
  { pricing_data_id := old.id
    price_per_unit := nw.price_per_unit
    change_percentage :=
      match old.price_per_unit, nw.price_per_unit with
      | some o, some n => if o = 0 then none else some (round2 ((n - o) / o * 100))
      | _, _ => none }

/-- The `updated_rows` CTE: every normalized row with a matching check row has
its price, description and legacy term column overwritten from it (the first
matching source row, as the UPDATE picks an arbitrary one). -/
def updateNormRow (crs : List CheckRow) (dst : NormRow) : NormRow :=
  match crs.find? (fun src => keysMatch dst src) with
  | some src =>
      { dst with
        price_per_unit := src.price_per_unit
        description := src.description
        term_length_year := some src.term_length_year }
  | none => dst

/-- The whole check-updates statement: derive the check rows, insert one
history entry per changed pair, update every matching normalized row, and
return the new table, the inserted history entries and the updated count. -/
def check_updates_normalized (db : Db) (norm : List NormRow)
    (staged : List StagedRow) :
    Except String (List NormRow × List PriceHistoryRow × Nat) := do
  let crs ← checkRowsOfStaged db staged
  let hist := (changedOf norm crs).map (fun p => mkHistoryRow p.1 p.2)
  let norm1 := norm.map (updateNormRow crs)
  let updCount := (norm.filter (fun d => crs.any (fun src => keysMatch d src))).length
  .ok (norm1, hist, updCount)

/-- Iterate the check-updates statement over the same staged data, threading
the normalized table and accumulating the history entries, as repeated
pipeline runs do. -/
def runCheckN (db : Db) (staged : List StagedRow) :
    Nat → List NormRow → List PriceHistoryRow →
    Except String (List NormRow × List PriceHistoryRow)
  | 0, norm, hist => .ok (norm, hist)
  | n + 1, norm, hist => do
      let (norm1, newHist, _) ← check_updates_normalized db norm staged
      runCheckN db staged n norm1 (hist ++ newHist)

/-! ### Canonical reference creation inside `weekly_pricing_dump_update` -/

/-- `canonical_provider_key`: classify a vendor-native name into a canonical
provider key (`None` for a falsy input). -/
def canonical_provider_key (vendor_raw : String) : Option String :=
  if vendor_raw = "" then none
  else
    let vl := lowerStr vendor_raw
    if likeSub "amazon" vl || likeSub "aws" vl then some "aws"
    else if likeSub "google" vl || likeSub "gcp" vl || likeSub "google cloud" vl then some "gcp"
    else if likeSub "microsoft" vl || likeSub "azure" vl then some "azure"
    else if likeSub "ibm" vl then some "ibm"
    else if likeSub "oracle" vl then some "oracle"
    else some (String.mk ((vl.data.filter (fun c => c != '.')).map
      (fun c => if c = ' ' || c = '/' then '_' else c)))

/-- `get_or_create` of a `CloudProvider` by canonical name (the display name
is not part of the modelled state). -/
def ensureProvider (db : Db) (key : String) : Db :=
  match lookupByName db.providers key with
  | some _ => db
  | none => { db with providers := db.providers ++ [(db.nextId, key)], nextId := db.nextId + 1 }

/-- The provider-creation loop: collect the canonical keys seen among the
staged vendor names (only `aws`/`gcp`/`azure` are ever collected) and
get-or-create a provider row for each. -/
def createProviders (db : Db) (vendors : List String) : Db :=
  let seen := (vendors.filterMap canonical_provider_key).filter
    (fun k => k == "aws" || k == "gcp" || k == "azure")
  (["aws", "gcp", "azure", "ibm"]).foldl
    (fun d k => if seen.contains k then ensureProvider d k else d) db

/-- `get_or_create` of the USD `Currency` row. -/
def ensureCurrency (db : Db) : Db :=
  match lookupByName db.currencies "USD" with
  | some _ => db
  | none => { db with currencies := db.currencies ++ [(db.nextId, "USD")], nextId := db.nextId + 1 }

/-- The `cloud_pricing_cloudservice` insert: distinct non-empty staged service
names joined to their provider, `ON CONFLICT (provider_id, name) DO NOTHING`. -/
def insertServices (db : Db) (staged : List StagedRow) : Db :=
  staged.foldl (fun d s =>
    if s.service != "" then
      match lookupByName d.providers (lowerStr s.vendorname) with
      | some pid =>
          if (lookupScoped d.services pid s.service).isSome then d
          else { d with services := d.services ++ [(d.nextId, pid, s.service)],
                        nextId := d.nextId + 1 }
      | none => d
    else d) db

/-- The `cloud_pricing_region` insert, same shape as the service insert. -/
def insertRegions (db : Db) (staged : List StagedRow) : Db :=
  staged.foldl (fun d s =>
    if s.region != "" then
      match lookupByName d.providers (lowerStr s.vendorname) with
      | some pid =>
          if (lookupScoped d.regions pid s.region).isSome then d
          else { d with regions := d.regions ++ [(d.nextId, pid, s.region)],
                        nextId := d.nextId + 1 }
      | none => d
    else d) db

/-- The pricing-model name normalization CASE of the pricing-model insert. -/
def pmNormalizedName (po : String) : String :=
  let l := lowerStr po
  if l == "spot" || l == "low priority" || l == "preemptible" || l == "cmt cud premium" ||
      l == "reserved" || likeSub "spot" l || likeSub "low priority" l then "Spot"
  else if l == "consumption" || l == "devtestconsumption" || l == "on_demand" ||
      likeSub "ondemand" l then "OnDemand"
  else if l == "reservation" then "Reserved"
  else if l == "preemptible" then "Preemptible"
  else po

/-- The WHERE filter of the pricing-model insert: a present, non-empty
`purchaseOption` that is not a commitment term or reservation. -/
def pmRowKept (po : Option String) : Bool :=
  match po with
  | none => false
  | some p =>
      p != "" &&
      !(likeSubSub "commit" "yr" (lowerStr p)) &&
      !(likeSubSub "commit" "mo" (lowerStr p)) &&
      !(likeSub "reservation" (lowerStr p)) &&
      !(likeSub "reserved" (lowerStr p))

/-- The `cloud_pricing_pricingmodel` insert: deconstruct every prices payload
(a malformed one aborts the statement), keep filtered purchase options,
insert their normalized names with `ON CONFLICT (name) DO NOTHING`. -/
def insertPricingModels (db : Db) (staged : List StagedRow) : Except String Db := do
  let elemsLists ← exMapM (fun s =>
    match s.prices with
    | some pj => priceElems pj
    | none => Except.error "invalid input syntax for type json") staged
  let names := elemsLists.flatten.filterMap (fun e =>
    let po := jgetText e "purchaseOption"
    if pmRowKept po then some (pmNormalizedName (po.getD "")) else none)
  .ok (names.foldl (fun d n =>
    if (lookupByName d.pricingModels n).isSome then d
    else { d with pricingModels := d.pricingModels ++ [(d.nextId, n)],
                  nextId := d.nextId + 1 }) db)

/-! ### The pipeline entry point `weekly_pricing_dump_update` -/

/-- Where the dump came from on this run. -/
inductive DumpSource where
  | localFile : DumpSource
  | downloaded : DumpSource
deriving DecidableEq

/-- The external world of one run: credentials, the local dump file, and the
outcomes of the network and staging-load steps (all external effects). -/
structure PipelineEnv where
  apiKeySet : Bool
  localDumpExists : Bool
  metadataDownloadUrl : Except String (Option String)
  downloadSucceeds : Bool
  stagingLoad : Except String (List StagedRow)

/-- The persistent database state the pipeline reads and writes. -/
structure PipelineState where
  db : Db
  raws : List RawRow
  norm : List NormRow
  history : List PriceHistoryRow

/-- The externally observable outcome of one run: the returned status string,
how many HTTP requests were made, how many `APICallLog` audit rows were
created, which dump source fed the run, and the resulting state. A status
starting `EXC:` models an exception escaping the task. -/
structure RunOutcome where
  status : String
  httpRequests : Nat
  apiCallLogs : Nat
  dumpSource : Option DumpSource
  state : PipelineState

/-- The non-empty staged vendor names (the `SELECT DISTINCT vendorName` probe;
duplicates are irrelevant to every use). -/
def vendorNamesOf (staged : List StagedRow) : List String :=
  staged.filterMap (fun s => if s.vendorname != "" then some s.vendorname else none)

/-- The SQL-processing block of the task (canonical inserts, raw insert,
normalized insert, conditional update pass), each statement committing before
the next runs: an error carries the state committed so far. Returns the final
state and `total_saved`. -/
def runSqlProcessing (st : PipelineState) (staged : List StagedRow) :
    Except (String × PipelineState) (PipelineState × Nat) :=
  let db1 := ensureCurrency (createProviders st.db (vendorNamesOf staged))
  let db2 := insertRegions (insertServices db1 staged) staged
  match insertPricingModels db2 staged with
  | .error e => .error (e, { st with db := db2 })
  | .ok db3 =>
      match insert_raw st.raws staged with
      | .error e => .error (e, { st with db := db3 })
      | .ok raws1 =>
          let rawInserted := raws1.length - st.raws.length
          let normalizedHasRows := !st.norm.isEmpty
          match insert_normalized db3 raws1 st.norm staged with
          | .error e => .error (e, { st with db := db3, raws := raws1 })
          | .ok (norm1, insCount) =>
              if normalizedHasRows then
                match check_updates_normalized db3 norm1 staged with
                | .error e =>
                    .error (e, { st with db := db3, raws := raws1, norm := norm1 })
                | .ok (norm2, hist, updCount) =>
                    .ok ({ db := db3, raws := raws1, norm := norm2,
                           history := st.history ++ hist },
                         rawInserted + insCount + updCount)
              else
                .ok ({ db := db3, raws := raws1, norm := norm1,
                       history := st.history },
                     rawInserted + insCount)

/-- The part of the task after a dump file is available: staging load, vendor
probe, SQL processing; exactly the full success path creates the single
`APICallLog` audit row. -/
def weeklyAfterDump (env : PipelineEnv) (st : PipelineState) (http : Nat)
    (src : DumpSource) : RunOutcome :=
  match env.stagingLoad with
  | .error e =>
      { status := "FAIL: staging load error " ++ e, httpRequests := http,
        apiCallLogs := 0, dumpSource := some src, state := st }
  | .ok staged =>
      if (vendorNamesOf staged).isEmpty then
        { status := "FAIL: no vendorName in staging", httpRequests := http,
          apiCallLogs := 0, dumpSource := some src, state := st }
      else
        match runSqlProcessing st staged with
        | .error ep =>
            { status := "EXC: " ++ ep.1, httpRequests := http,
              apiCallLogs := 0, dumpSource := some src, state := ep.2 }
        | .ok (st1, total) =>
            { status := "OK: saved " ++ toString total, httpRequests := http,
              apiCallLogs := 1, dumpSource := some src, state := st1 }

/-- `weekly_pricing_dump_update`: credential check, then either the local dump
shortcut (no HTTP at all) or the metadata fetch plus streamed download (one
HTTP request each), then staging and SQL processing. -/
def weekly_pricing_dump_update (env : PipelineEnv) (st : PipelineState) : RunOutcome :=
  if !env.apiKeySet then
    { status := "FAIL: no API key", httpRequests := 0, apiCallLogs := 0,
      dumpSource := none, state := st }
  else if env.localDumpExists then
    weeklyAfterDump env st 0 DumpSource.localFile
  else
    match env.metadataDownloadUrl with
    | .error e =>
        { status := "FAIL: metadata error " ++ e, httpRequests := 1,
          apiCallLogs := 0, dumpSource := none, state := st }
    | .ok none =>
        { status := "FAIL: no downloadUrl", httpRequests := 1,
          apiCallLogs := 0, dumpSource := none, state := st }
    | .ok (some _) =>
        if env.downloadSucceeds then
          weeklyAfterDump env st 2 DumpSource.downloaded
        else
          { status := "FAIL: download crashed", httpRequests := 2,
            apiCallLogs := 0, dumpSource := none, state := st }

/-! ### Concrete sample data used by witnesses and counterexamples -/

/-- A small canonical database: one provider/service/region, USD, and the
`on_demand` pricing-model row the LEFT/INNER pm joins look up. -/
def sampleDb : Db :=
  { providers := [(1, "aws")]
    services := [(2, 1, "AmazonS3")]
    regions := [(3, 1, "us-east-1")]
    pricingModels := [(10, "OnDemand"), (11, "on_demand")]
    currencies := [(4, "USD")]
    nextId := 20 }

/-- Scenario A: an hourly-rated element. -/
def elemHrs : Jsonb := .jobj [("USD", .jstr "0.052"), ("unit", .jstr "Hrs")]

/-- Scenario B exactly as the claim words it: the commitment is carried by the
`purchaseOption` field. -/
def elemUpfrontPO : Jsonb := .jobj [("USD", .jstr "1000"), ("unit", .jstr "Quantity"),
  ("purchaseOption", .jstr "All Upfront"), ("termLength", .jstr "3yr")]

/-- Scenario B with the commitment on the `termPurchaseOption` field, which is
the field the statement actually tests. -/
def elemUpfrontTPO : Jsonb := .jobj [("USD", .jstr "1000"), ("unit", .jstr "Quantity"),
  ("termPurchaseOption", .jstr "All Upfront"), ("termLength", .jstr "3yr")]

/-- Scenario C: a GB-Month rate with no hourly equivalent, price 0.01. -/
def elemGbMonth : Jsonb := .jobj [("USD", .jstr "0.01"), ("unit", .jstr "GB-Month")]

/-- The same element at price 0.10 and 0.12 (scenario D). -/
def elemGbMonth10 : Jsonb := .jobj [("USD", .jstr "0.10"), ("unit", .jstr "GB-Month")]

/-- Scenario D second run: price 0.12. -/
def elemGbMonth12 : Jsonb := .jobj [("USD", .jstr "0.12"), ("unit", .jstr "GB-Month")]

/-- A one-element prices payload. -/
def pricesOf (e : Jsonb) : Jsonb := .jobj [("prices", .jarr [e])]

/-- A well-formed staged row carrying the given element under digest `h1`. -/
def stagedWith (e : Jsonb) : StagedRow :=
  { producthash := "h1", sku := "sku1", vendorname := "aws", region := "us-east-1",
    service := "AmazonS3", product_family := "", attributes := some (.jobj []),
    prices := some (pricesOf e) }

/-- The scenario-C staged row. -/
def stagedGb : StagedRow := stagedWith elemGbMonth

/-- A staged row whose `attributes` text fails the JSON cast. -/
def stagedBadAttrs : StagedRow :=
  { producthash := "h2", sku := "sku2", vendorname := "aws", region := "us-east-1",
    service := "AmazonS3", product_family := "", attributes := none,
    prices := some (pricesOf elemHrs) }

/-- Raw rows for the two digests above. -/
def rawGb : RawRow :=
  { id := 0, product_hash := "h1", raw_json := pricesOf elemGbMonth,
    source_api := "infracost" }

/-- Raw row for the malformed-attributes staged row. -/
def rawBad : RawRow :=
  { id := 1, product_hash := "h2", raw_json := pricesOf elemHrs,
    source_api := "infracost" }

/-- The normalized row the insert statement produces from `stagedGb` on an
empty fact table. -/
def rowGb : NormRow :=
  { id := 0, provider_id := 1, service_id := 2, region_id := 3,
    pricing_model_id := some 11, currency_id := 4,
    product_family := "", instance_type := "", operating_system := "", tenancy := "",
    price_per_unit := some (1/100), price_unit := some "GB-Month", description := "",
    term_length_years := none, raw_entry_id := 0, is_active := true,
    source_api := "infracost", effective_price_per_hour := some 0,
    is_all_upfront := false, is_partial_upfront := false, is_no_upfront := false,
    term_length_year := none }

/-- An active normalized row for the scenario-D key at price 0.10. -/
def oldRow10 : NormRow :=
  { rowGb with price_per_unit := some (1/10) }

/-- Two staged rows with the same digest but different node id and vendor. -/
def stagedHashA : StagedRow :=
  { producthash := "h", sku := "skuA", vendorname := "aws", region := "us-east-1",
    service := "AmazonS3", product_family := "", attributes := some (.jobj []),
    prices := some (.jobj []) }

/-- Same digest as `stagedHashA`, different sku and vendor. -/
def stagedHashB : StagedRow :=
  { stagedHashA with sku := "skuB", vendorname := "gcp" }

/-- Two staged rows identical in every identifying field, differing only in
the upstream-supplied digest column. -/
def stagedSameContentA : StagedRow :=
  { stagedHashA with producthash := "hA" }

/-- Identical content to `stagedSameContentA`, digest column `hB`. -/
def stagedSameContentB : StagedRow :=
  { stagedHashA with producthash := "hB" }

/-- An empty pipeline state over an empty database. -/
def emptyState : PipelineState :=
  { db := { providers := [], services := [], regions := [], pricingModels := [],
            currencies := [], nextId := 1 }
    raws := [], norm := [], history := [] }

/-- A run environment with the local dump present and a one-row staging load. -/
def envLocal : PipelineEnv :=
  { apiKeySet := true, localDumpExists := true,
    metadataDownloadUrl := .ok (some "https://example.invalid/dump"),
    downloadSucceeds := true, stagingLoad := .ok [stagedGb] }

/-- A run environment with no API key configured. -/
def envNoKey : PipelineEnv :=
  { envLocal with apiKeySet := false }

/-- `rowGb` with its price in the raw shape the numeric cast produces
(the two are equal as rationals). -/
def rowGbCast : NormRow :=
  { rowGb with price_per_unit := some (((1 : Nat) : Rat) / ((100 : Nat) : Rat)) }

/-- Scenario D second-run staging: the same key at price 0.12. -/
def stagedGb12 : StagedRow := stagedWith elemGbMonth12

/-- The check row the check-updates CTE derives from `stagedGb12` (its price
in the raw shape the numeric cast produces). -/
def crGb12 : CheckRow :=
  { provider_id := 1, service_id := 2, region_id := 3, pricing_model_id := 11,
    currency_id := 4, product_family := "", instance_type := "",
    operating_system := "", tenancy := "",
    price_per_unit := some (((12 : Nat) : Rat) / ((100 : Nat) : Rat)),
    price_unit := some "GB-Month", description := "", term_length_year := "",
    vcpu_count := none, product_hash := "h1" }

/-! ## Theorems -/

/-- Binding a successful `Except` computation. -/
theorem exbind_ok (a : α) (f : α → Except String β) :
    (Except.ok a >>= f : Except String β) = f a := rfl

/-- Binding a failed `Except` computation. -/
theorem exbind_err (e : String) (f : α → Except String β) :
    (Except.error e >>= f : Except String β) = .error e := rfl

/-- `exMapM` on a cons cell. -/
theorem exMapM_cons (f : α → Except String β) (a : α) (t : List α) :
    exMapM f (a :: t) = (f a >>= fun b => exMapM f t >>= fun bs => .ok (b :: bs)) := rfl

/-- `hasHash` distributes over append. -/
theorem hasHash_append (a b : List RawRow) (h : String) :
    hasHash (a ++ b) h = (hasHash a h || hasHash b h) := by
  simp [hasHash, List.any_append]

/-- One raw-insert step never loses a digest already in the table. -/
theorem insertRawStep_mono {acc acc1 : List RawRow} {s : StagedRow} {h : String}
    (hstep : insertRawStep acc s = .ok acc1) (hh : hasHash acc h = true) :
    hasHash acc1 h = true := by
  cases hp : s.prices with
  | none => simp [insertRawStep, hp] at hstep
  | some pj =>
      simp only [insertRawStep, hp] at hstep
      by_cases hc : hasHash acc s.producthash = true
      · rw [if_pos hc] at hstep
        cases hstep
        exact hh
      · rw [if_neg hc] at hstep
        cases hstep
        rw [hasHash_append]
        simp [hh]

/-- The raw insert never loses a digest already in the table. -/
theorem insert_raw_mono : ∀ (staged : List StagedRow) (raws r : List RawRow) (h : String),
    insert_raw raws staged = .ok r → hasHash raws h = true → hasHash r h = true := by
  intro staged
  induction staged with
  | nil =>
      intro raws r h hrun hh
      unfold insert_raw at hrun
      cases hrun
      exact hh
  | cons s t ih =>
      intro raws r h hrun hh
      unfold insert_raw at hrun
      cases hstep : insertRawStep raws s with
      | error e => rw [hstep] at hrun; exact absurd hrun (by simp)
      | ok acc =>
          rw [hstep] at hrun
          exact ih acc r h hrun (insertRawStep_mono hstep hh)

/-- After a successful raw insert, every staged digest is in the table and
every staged prices payload was well-formed. -/
theorem insert_raw_covers : ∀ (staged : List StagedRow) (raws r : List RawRow),
    insert_raw raws staged = .ok r →
    ∀ s ∈ staged, hasHash r s.producthash = true ∧ s.prices.isSome = true := by
  intro staged
  induction staged with
  | nil => intro raws r _ s hs; exact absurd hs (by simp)
  | cons x t ih =>
      intro raws r hrun s hs
      unfold insert_raw at hrun
      cases hstep : insertRawStep raws x with
      | error e => rw [hstep] at hrun; exact absurd hrun (by simp)
      | ok acc =>
          rw [hstep] at hrun
          rcases List.mem_cons.mp hs with hxs | hst
      
          · subst hxs
            have hx : hasHash acc s.producthash = true ∧ s.prices.isSome = true := by
              cases hp : s.prices with
              | none => simp [insertRawStep, hp] at hstep
              | some pj =>
                  simp only [insertRawStep, hp] at hstep
                  refine ⟨?_, by simp [hp]⟩
                  by_cases hc : hasHash raws s.producthash = true
                  · rw [if_pos hc] at hstep; cases hstep; exact hc
                  · rw [if_neg hc] at hstep
                    cases hstep
                    rw [hasHash_append]
                    simp [hasHash]
            exact ⟨insert_raw_mono t acc r s.producthash hrun hx.1, hx.2⟩
          · exact ih acc r hrun s hst

/-- A staging table whose digests are all present already is a fixed point of
the raw insert. -/
theorem insert_raw_fixed : ∀ (staged : List StagedRow) (raws : List RawRow),
    (∀ s ∈ staged, hasHash raws s.producthash = true ∧ s.prices.isSome = true) →
    insert_raw raws staged = .ok raws := by
  intro staged
  induction staged with
  | nil => intro raws _; rfl
  | cons x t ih =>
      intro raws hall
      have hx := hall x (List.mem_cons_self x t)
      rcases Option.isSome_iff_exists.mp hx.2 with ⟨pj, hpj⟩
      unfold insert_raw
      have hstep : insertRawStep raws x = .ok raws := by
        simp only [insertRawStep, hpj]
        rw [if_pos hx.1]
      rw [hstep]
      exact ih raws (fun s hs => hall s (List.mem_cons_of_mem x hs))

/-- C1. Raw ingestion is idempotent: once a raw insert over a staged dataset
has succeeded, running the same insert again over the same staged rows adds
zero rows and leaves the table unchanged — every staged digest is already
present and `ON CONFLICT (product_hash) DO NOTHING` skips it. -/
theorem C1_raw_ingestion_idempotent (raws staged r1)
    (h : insert_raw raws staged = .ok r1) :
    insert_raw r1 staged = .ok r1 :=
  insert_raw_fixed staged r1 (fun s hs => insert_raw_covers staged raws r1 h s hs)

/-- C1 witness: a concrete first run followed by a second run that is a no-op. -/
theorem C1_raw_ingestion_idempotent_witness :
    insert_raw [{ id := 0, product_hash := "h1", raw_json := pricesOf elemGbMonth,
                  source_api := "infracost" }] [stagedGb] =
      .ok [{ id := 0, product_hash := "h1", raw_json := pricesOf elemGbMonth,
             source_api := "infracost" }] :=
  C1_raw_ingestion_idempotent [] [stagedGb] _ (by rfl)

/-- Every row of the raw table after an insert either was there before or
carries the digest column of some staged row verbatim. -/
theorem insert_raw_provenance : ∀ (staged : List StagedRow) (raws r : List RawRow),
    insert_raw raws staged = .ok r →
    ∀ row ∈ r, row ∈ raws ∨ ∃ s ∈ staged, row.product_hash = s.producthash := by
  intro staged
  induction staged with
  | nil =>
      intro raws r hrun row hrow
      unfold insert_raw at hrun
      cases hrun
      exact Or.inl hrow
  | cons x t ih =>
      intro raws r hrun row hrow
      unfold insert_raw at hrun
      cases hstep : insertRawStep raws x with
      | error e => rw [hstep] at hrun; exact absurd hrun (by simp)
      | ok acc =>
          rw [hstep] at hrun
          rcases ih acc r hrun row hrow with hacc | ⟨s, hs, hhash⟩
          · cases hp : x.prices with
            | none => simp [insertRawStep, hp] at hstep
            | some pj =>
                simp only [insertRawStep, hp] at hstep
                by_cases hc : hasHash raws x.producthash = true
                · rw [if_pos hc] at hstep
                  cases hstep
                  exact Or.inl hacc
                · rw [if_neg hc] at hstep
                  cases hstep
                  rcases List.mem_append.mp hacc with hold | hnew
                  · exact Or.inl hold
                  · refine Or.inr ⟨x, List.mem_cons_self x t, ?_⟩
                    rcases List.mem_singleton.mp hnew with rfl
                    rfl
          · exact Or.inr ⟨s, List.mem_cons_of_mem x hs, hhash⟩

/-- The raw insert preserves pairwise-distinct digests: uniqueness is enforced
on `product_hash` alone. -/
theorem insert_raw_nodup : ∀ (staged : List StagedRow) (raws r : List RawRow),
    insert_raw raws staged = .ok r →
    List.Pairwise (fun a b : RawRow => a.product_hash ≠ b.product_hash) raws →
    List.Pairwise (fun a b : RawRow => a.product_hash ≠ b.product_hash) r := by
  intro staged
  induction staged with
  | nil =>
      intro raws r hrun hp
      unfold insert_raw at hrun
      cases hrun
      exact hp
  | cons x t ih =>
      intro raws r hrun hp
      unfold insert_raw at hrun
      cases hstep : insertRawStep raws x with
      | error e => rw [hstep] at hrun; exact absurd hrun (by simp)
      | ok acc =>
          rw [hstep] at hrun
          refine ih acc r hrun ?_
          cases hpj : x.prices with
          | none => simp [insertRawStep, hpj] at hstep
          | some pj =>
              simp only [insertRawStep, hpj] at hstep
              by_cases hc : hasHash raws x.producthash = true
              · rw [if_pos hc] at hstep
                cases hstep
                exact hp
              · rw [if_neg hc] at hstep
                cases hstep
                rw [List.pairwise_append]
                refine ⟨hp, List.pairwise_singleton _ _, ?_⟩
                intro a ha b hb
                rcases List.mem_singleton.mp hb with rfl
                intro heq
                apply hc
                unfold hasHash
                rw [List.any_eq_true]
                exact ⟨a, ha, by simp [heq]⟩

/-- C8 counterexample. First conjunct: two staged rows with the same digest
but different node id (`sku`) and vendor collapse into a single raw row —
uniqueness per (provider, node identifier, digest) triple would keep both.
Second conjunct: two staged rows identical in every identifying field but
with different upstream digest columns are stored under those two different
digests — a digest computed by the system over the identifying fields would
have been identical for both. -/
theorem C8_counterexample :
    insert_raw [] [stagedHashA, stagedHashB] =
      .ok [{ id := 0, product_hash := "h", raw_json := Jsonb.jobj [],
             source_api := "infracost" }] ∧
    insert_raw [] [stagedSameContentA, stagedSameContentB] =
      .ok [{ id := 0, product_hash := "hA", raw_json := Jsonb.jobj [],
             source_api := "infracost" },
           { id := 1, product_hash := "hB", raw_json := Jsonb.jobj [],
             source_api := "infracost" }] :=
  ⟨rfl, rfl⟩

/-- C8 as amended: the raw store persists each staged row under the
`producthash` digest column carried by the staged dump, stored verbatim (not
recomputed from the row's fields), and raw-record uniqueness is enforced on
the digest alone. -/
theorem C8_digest_from_staging (raws staged r)
    (h : insert_raw raws staged = .ok r) :
    (∀ row ∈ r, row ∈ raws ∨ ∃ s ∈ staged, row.product_hash = s.producthash) ∧
    (List.Pairwise (fun a b : RawRow => a.product_hash ≠ b.product_hash) raws →
      List.Pairwise (fun a b : RawRow => a.product_hash ≠ b.product_hash) r) :=
  ⟨insert_raw_provenance staged raws r h, insert_raw_nodup staged raws r h⟩

/-- C8 witness: the amended statement applied to a concrete two-row staging
table over an empty raw table. -/
theorem C8_digest_from_staging_witness :
    List.Pairwise (fun a b : RawRow => a.product_hash ≠ b.product_hash)
      [{ id := 0, product_hash := "hA", raw_json := Jsonb.jobj [],
         source_api := "infracost" },
       { id := 1, product_hash := "hB", raw_json := Jsonb.jobj [],
         source_api := "infracost" }] :=
  (C8_digest_from_staging [] [stagedSameContentA, stagedSameContentB] _ (by rfl)).2
    (List.Pairwise.nil)

/-- A status built on `FAIL: metadata error ` never starts with `OK`. -/
theorem startsOK_metadata_false (e : String) :
    strStartsWith "OK" ("FAIL: metadata error " ++ e) = false := by
  show List.isPrefixOf "OK".data ("FAIL: metadata error " ++ e).data = false
  rw [String.data_append]
  rfl

/-- A status built on `FAIL: staging load error ` never starts with `OK`. -/
theorem startsOK_staging_false (e : String) :
    strStartsWith "OK" ("FAIL: staging load error " ++ e) = false := by
  show List.isPrefixOf "OK".data ("FAIL: staging load error " ++ e).data = false
  rw [String.data_append]
  rfl

/-- An escaped-exception status never starts with `OK`. -/
theorem startsOK_exc_false (e : String) :
    strStartsWith "OK" ("EXC: " ++ e) = false := by
  show List.isPrefixOf "OK".data ("EXC: " ++ e).data = false
  rw [String.data_append]
  rfl

/-- The success status always starts with `OK`. -/
theorem startsOK_saved_true (e : String) :
    strStartsWith "OK" ("OK: saved " ++ e) = true := by
  show List.isPrefixOf "OK".data ("OK: saved " ++ e).data = true
  rw [String.data_append]
  rfl

/-- After a dump is available, the audit row is created exactly on the branch
whose status starts with `OK`. -/
theorem weeklyAfterDump_ledger (env : PipelineEnv) (st : PipelineState)
    (http : Nat) (src : DumpSource) :
    (weeklyAfterDump env st http src).apiCallLogs =
      (if strStartsWith "OK" (weeklyAfterDump env st http src).status then 1 else 0) := by
  unfold weeklyAfterDump
  cases hs : env.stagingLoad with
  | error e => simp [startsOK_staging_false]
  | ok staged =>
      by_cases hv : (vendorNamesOf staged).isEmpty
      · simp only [hv, if_true]
        rfl
      · simp only [hv, if_false]
        cases hr : runSqlProcessing st staged with
        | error ep => simp [startsOK_exc_false]
        | ok pr => simp [startsOK_saved_true]

/-- C9 counterexample: a run aborted by missing credentials creates zero
`APICallLog` rows (the claim demands exactly one for every execution,
including early aborts). -/
theorem C9_counterexample :
    (weekly_pricing_dump_update envNoKey emptyState).status = "FAIL: no API key" ∧
    (weekly_pricing_dump_update envNoKey emptyState).apiCallLogs = 0 :=
  ⟨rfl, rfl⟩

/-- C9 as amended: exactly the runs that complete the SQL-processing block
(status `OK: saved N`) create one `APICallLog` audit row; every aborted run
— missing credentials, metadata failure, download failure, staging-load
failure, empty vendor probe, or an exception escaping the SQL block —
creates none. -/
theorem C9_ledger_only_on_success (env : PipelineEnv) (st : PipelineState) :
    (weekly_pricing_dump_update env st).apiCallLogs =
      (if strStartsWith "OK" (weekly_pricing_dump_update env st).status then 1 else 0) := by
  unfold weekly_pricing_dump_update
  cases hk : env.apiKeySet with
  | false => rfl
  | true =>
      simp only [Bool.not_true, Bool.false_eq_true, if_false]
      cases hl : env.localDumpExists with
      | true => exact weeklyAfterDump_ledger env st 0 DumpSource.localFile
      | false =>
          cases hm : env.metadataDownloadUrl with
          | error e => simp [startsOK_metadata_false]
          | ok u =>
              cases u with
              | none => rfl
              | some url =>
                  cases hd : env.downloadSucceeds with
                  | true => exact weeklyAfterDump_ledger env st 2 DumpSource.downloaded
                  | false => rfl

/-- After a dump is available, the HTTP count and dump source recorded in the
outcome are exactly the ones passed in, on every branch. -/
theorem weeklyAfterDump_source (env : PipelineEnv) (st : PipelineState)
    (http : Nat) (src : DumpSource) :
    (weeklyAfterDump env st http src).httpRequests = http ∧
    (weeklyAfterDump env st http src).dumpSource = some src := by
  unfold weeklyAfterDump
  cases hs : env.stagingLoad with
  | error e => exact ⟨rfl, rfl⟩
  | ok staged =>
      dsimp only
      by_cases hv : (vendorNamesOf staged).isEmpty
      · rw [if_pos hv]
        exact ⟨rfl, rfl⟩
      · rw [if_neg hv]
        cases hr : runSqlProcessing st staged with
        | error ep => exact ⟨rfl, rfl⟩
        | ok pr => obtain ⟨st1, total⟩ := pr; exact ⟨rfl, rfl⟩

/-- C10. If the local dump file exists when the task starts, the run performs
no HTTP request at all (neither the metadata fetch nor the download), and —
provided the credential check passes — the run's input is the local file,
with no freshness check of any kind. -/
theorem C10_local_dump_skips_network (env : PipelineEnv) (st : PipelineState)
    (h : env.localDumpExists = true) :
    (weekly_pricing_dump_update env st).httpRequests = 0 ∧
    (env.apiKeySet = true →
      (weekly_pricing_dump_update env st).dumpSource = some DumpSource.localFile) := by
  unfold weekly_pricing_dump_update
  cases hk : env.apiKeySet with
  | false =>
      refine ⟨rfl, ?_⟩
      intro hkk
      exact absurd hkk (by simp)
  | true =>
      simp only [h, Bool.not_true, Bool.false_eq_true, if_false, if_true]
      exact ⟨(weeklyAfterDump_source env st 0 DumpSource.localFile).1,
        fun _ => (weeklyAfterDump_source env st 0 DumpSource.localFile).2⟩

/-- C10 witness: a concrete run with the local dump present makes no HTTP
request and ingests from the local file. -/
theorem C10_local_dump_skips_network_witness :
    (weekly_pricing_dump_update envLocal emptyState).httpRequests = 0 ∧
    (weekly_pricing_dump_update envLocal emptyState).dumpSource =
      some DumpSource.localFile :=
  ⟨(C10_local_dump_skips_network envLocal emptyState (by rfl)).1,
   (C10_local_dump_skips_network envLocal emptyState (by rfl)).2 (by rfl)⟩

/-- C2 counterexample: the claim's own instance — amount 1000, unit
`Quantity`, `purchaseOption` = `All Upfront`, `termLength` = `3yr` — derives
an effective price of 0, not 1000 / (3·8766): the amortization guard tests
the `termPurchaseOption` field, and this element has none. -/
theorem C2_counterexample :
    deriveEffective sampleDb elemUpfrontPO = .ok 0 ∧
    (1000 : Rat) / (3 * 8766) ≠ 0 :=
  ⟨rfl, by norm_num⟩

/-- C2 as amended: for every staged price element whose unit classifies as
`Unit`/`Quantity`, whose `termPurchaseOption` field (not `purchaseOption`)
is present and differs from `No Upfront`, and whose term length parses to a
nonzero number of years `t` (an `Nyr` term gives `N`, an `Nmo` term `N / 12`,
per `termLengthYearClean`), the derived effective price per hour is
`amount / (t * 8766)`. -/
theorem C2_amortized_effective_price (db : Db) (elem : Jsonb) (s1 : Stage1)
    (p t : Rat)
    (h1 : mkStage1 db elem = .ok s1)
    (h2 : s1.normalizedPriceUnit = some "Unit" ∨ s1.normalizedPriceUnit = some "Quantity")
    (h3 : ∃ tpo, s1.termPurchaseOption = some tpo ∧ tpo ≠ "No Upfront")
    (h4 : termLengthYearClean s1.extractedTermLength = some t)
    (h5 : t ≠ 0)
    (h6 : castNumericOpt s1.rawPrice = .ok (some p)) :
    deriveEffective db elem = .ok (p / (t * 8766)) := by
  have hcond : amortizeCond s1 = true := by
    unfold amortizeCond
    obtain ⟨tpo, htpo, hne⟩ := h3
    rw [htpo, h4]
    rcases h2 with h2 | h2 <;> rw [h2] <;> simp [bne_iff_ne, hne]
  have ht : t * 8766 ≠ 0 := mul_ne_zero h5 (by norm_num)
  unfold deriveEffective
  simp only [h1, exbind_ok, h6]
  unfold effectivePricePerHourOf
  rw [if_pos hcond, h4]
  simp only [if_neg ht]

/-- C2 witness: the scenario-B numbers with the commitment carried by
`termPurchaseOption`: amount 1000, `3yr` term, yielding 1000 / (3·8766). -/
theorem C2_amortized_effective_price_witness :
    deriveEffective sampleDb elemUpfrontTPO = .ok ((1000 : Rat) / (3 * 8766)) :=
  C2_amortized_effective_price sampleDb elemUpfrontTPO
    { priceElem := elemUpfrontTPO
      rawPrice := some "1000"
      priceUnitRaw := some "Quantity"
      termPurchaseOption := some "All Upfront"
      termLengthYearRaw := some "3yr"
      extractedTermLength := some "3yr"
      pricingModelId := none
      normalizedPriceUnit := some "Unit"
      pricePerHour := none
      pricePerDay := none
      pricePerMonth := none
      pricePerGb := none
      pricePerUnitCount := some (((1000 : Nat) : Rat) / ((1 : Nat) : Rat)) }
    1000 3 (by rfl) (Or.inl rfl) ⟨"All Upfront", rfl, by decide⟩
    (by
      have h : termLengthYearClean (some "3yr") = some ((3 : Nat) : Rat) := rfl
      rw [h]
      norm_num)
    (by norm_num)
    (by
      have h : parseNumeric "1000" = some (((1000 : Nat) : Rat) / ((1 : Nat) : Rat)) := rfl
      simp only [castNumericOpt, h]
      norm_num)

/-- C3 counterexample: scenario C (unit `GB-Month`, price 0.01). The row is
persisted with its raw unit retained, as the claim says, but its
`effective_price_per_hour` is stored as 0 — the statement's COALESCE default
— not as NULL. -/
theorem C3_counterexample :
    insert_normalized sampleDb [rawGb] [] [stagedGb] = .ok ([rowGb], 1) ∧
    rowGb.effective_price_per_hour ≠ none := by
  constructor
  · have hv : (((1 : Nat) : Rat) / ((100 : Nat) : Rat)) = (1 : Rat) / 100 := by norm_num
    have h : insert_normalized sampleDb [rawGb] [] [stagedGb] = .ok ([rowGbCast], 1) := rfl
    rw [h]
    unfold rowGbCast
    rw [hv]
    rfl
  · simp [rowGb]

/-- C3 as amended: a staged price element whose unit fires no conversion
branch still yields a normalized row; its `effective_price_per_hour` is 0
(not NULL), and the raw unit string is retained in `price_unit`. The second
conjunct persists scenario C through the full insert statement. -/
theorem C3_unconvertible_unit_kept (db : Db) (elem : Jsonb) (s1 : Stage1)
    (ppu : Option Rat)
    (h1 : mkStage1 db elem = .ok s1)
    (h2 : convertibleInd s1 = false)
    (h3 : castNumericOpt s1.rawPrice = .ok ppu) :
    deriveEffective db elem = .ok 0 ∧ priceUnitSelect s1 = s1.priceUnitRaw := by
  have h2' := h2
  unfold convertibleInd at h2'
  simp only [Bool.or_eq_false_iff] at h2'
  obtain ⟨⟨⟨⟨ha, hh⟩, hd⟩, hm⟩, hg⟩ := h2'
  constructor
  · unfold deriveEffective
    simp only [h1, exbind_ok, h3]
    unfold effectivePricePerHourOf
    rw [if_neg (by simp [ha])]
    simp [hh, hd, hm, hg]
  · unfold priceUnitSelect
    rw [if_neg (by simp [h2])]

/-- C3 witness: scenario C evaluated concretely — `GB-Month` derives 0, keeps
the unit string, and the row round-trips through the insert statement. -/
theorem C3_unconvertible_unit_kept_witness :
    deriveEffective sampleDb elemGbMonth = .ok 0 ∧
    priceUnitSelect
      { priceElem := elemGbMonth
        rawPrice := some "0.01"
        priceUnitRaw := some "GB-Month"
        termPurchaseOption := none
        termLengthYearRaw := none
        extractedTermLength := none
        pricingModelId := some 11
        normalizedPriceUnit := some "GB-Month"
        pricePerHour := none
        pricePerDay := none
        pricePerMonth := none
        pricePerGb := none
        pricePerUnitCount := none } = some "GB-Month" :=
  C3_unconvertible_unit_kept sampleDb elemGbMonth _ (some (((1 : Nat) : Rat) / ((100 : Nat) : Rat)))
    (by rfl) (by rfl) (by rfl)

/-- A unit whose lowercase form is `1/day` matches no other unit vocabulary. -/
theorem day_unit_disjoint (s : String) (h : lowerStr s = "1/day") :
    optLowerIn (some s) hourUnitsLower = false ∧
    optLowerIn (some s) monthUnitsLower = false ∧
    optLowerIn (some s) gbUnitsLower = false ∧
    optIn (some s) unitTokens = false := by
  refine ⟨?_, ?_, ?_, ?_⟩
  · show hourUnitsLower.contains (lowerStr s) = false
    rw [h]; decide
  · show monthUnitsLower.contains (lowerStr s) = false
    rw [h]; decide
  · show gbUnitsLower.contains (lowerStr s) = false
    rw [h]; decide
  · cases hcon : optIn (some s) unitTokens with
    | false => rfl
    | true =>
        exfalso
        have hmem : s ∈ unitTokens := List.mem_of_elem_eq_true hcon
        fin_cases hmem <;> exact absurd h (by decide)

/-- A month-classified unit matches neither the hour vocabulary nor `1/day`. -/
theorem month_unit_disjoint (s : String)
    (h : optLowerIn (some s) monthUnitsLower = true) :
    optLowerIn (some s) hourUnitsLower = false ∧
    optLowerEq (some s) "1/day" = false ∧
    optIn (some s) unitTokens = false := by
  have hmem : lowerStr s ∈ monthUnitsLower := List.mem_of_elem_eq_true h
  refine ⟨?_, ?_, ?_⟩
  · show hourUnitsLower.contains (lowerStr s) = false
    generalize ht : lowerStr s = t at hmem ⊢
    fin_cases hmem <;> decide
  · show (lowerStr s == "1/day") = false
    generalize ht : lowerStr s = t at hmem ⊢
    fin_cases hmem <;> decide
  · cases hcon : optIn (some s) unitTokens with
    | false => rfl
    | true =>
        exfalso
        have hs : s ∈ unitTokens := List.mem_of_elem_eq_true hcon
        fin_cases hs <;> exact absurd hmem (by decide)

/-- C6. Direct unit conversion: an Hour-classified unit keeps the amount
as-is, the `1/day` unit divides it by 24, and a Month-classified unit divides
it by 730 — for any price element whose `USD` text casts to `p`. -/
theorem C6_direct_unit_conversion (db : Db) (elem : Jsonb) (p : Rat)
    (husd : castNumericOpt (jgetText elem "USD") = .ok (some p)) :
    (optLowerIn (jgetText elem "unit") hourUnitsLower = true →
        deriveEffective db elem = .ok p) ∧
    (optLowerEq (jgetText elem "unit") "1/day" = true →
        deriveEffective db elem = .ok (p / 24)) ∧
    (optLowerIn (jgetText elem "unit") monthUnitsLower = true →
        deriveEffective db elem = .ok (p / 730)) := by
  refine ⟨?_, ?_, ?_⟩
  · intro hc
    unfold deriveEffective mkStage1
    dsimp only
    rw [husd]
    simp only [exbind_ok]
    rw [husd]
    simp only [exbind_ok]
    unfold effectivePricePerHourOf amortizeCond
    simp only [normalizedPriceUnitOf, hc, if_true, if_pos]
    simp [hc]
  · intro hc
    have hs : ∃ s, jgetText elem "unit" = some s ∧ lowerStr s = "1/day" := by
      cases hu : jgetText elem "unit" with
      | none => rw [hu] at hc; exact absurd hc (by simp [optLowerEq])
      | some s =>
          rw [hu] at hc
          exact ⟨s, rfl, eq_of_beq hc⟩
    obtain ⟨s, hu, hl⟩ := hs
    obtain ⟨hh, hm, hg, ht⟩ := day_unit_disjoint s hl
    unfold deriveEffective mkStage1
    dsimp only
    rw [husd]
    simp only [exbind_ok]
    rw [husd]
    simp only [exbind_ok]
    unfold effectivePricePerHourOf amortizeCond
    simp only [normalizedPriceUnitOf, hu] at *
    simp [hh, hm, hg, ht, hc]
  · intro hc
    have hs : ∃ s, jgetText elem "unit" = some s := by
      cases hu : jgetText elem "unit" with
      | none => rw [hu] at hc; exact absurd hc (by simp [optLowerIn])
      | some s => exact ⟨s, rfl⟩
    obtain ⟨s, hu⟩ := hs
    rw [hu] at hc
    obtain ⟨hh, hd, ht⟩ := month_unit_disjoint s hc
    unfold deriveEffective mkStage1
    dsimp only
    rw [husd]
    simp only [exbind_ok]
    rw [husd]
    simp only [exbind_ok]
    unfold effectivePricePerHourOf amortizeCond
    simp only [normalizedPriceUnitOf, hu] at *
    simp [hh, hd, ht, hc]

/-- C6 witness: scenario A — unit `Hrs`, amount 0.052, effective price 0.052. -/
theorem C6_direct_unit_conversion_witness :
    deriveEffective sampleDb elemHrs = .ok (0.052 : Rat) :=
  (C6_direct_unit_conversion sampleDb elemHrs 0.052
    (by
      have h : parseNumeric "0.052" = some (((52 : Nat) : Rat) / ((1000 : Nat) : Rat)) := rfl
      show castNumericOpt (some "0.052") = .ok (some 0.052)
      simp only [castNumericOpt, h]
      norm_num)).1 (by decide)

/-- `rowGbCast` and `rowGb` are the same row (their prices are equal
rationals). -/
theorem rowGbCast_eq : rowGbCast = rowGb := by
  unfold rowGbCast
  have hv : (((1 : Nat) : Rat) / ((100 : Nat) : Rat)) = (1 : Rat) / 100 := by norm_num
  rw [hv]
  rfl

/-- A traversal containing an element on which the statement fails can never
succeed. -/
theorem exMapM_err_of_mem (f : α → Except String β) (l : List α) (x : α)
    (hx : x ∈ l) (hf : ∀ r, f x ≠ .ok r) : ∀ rs, exMapM f l ≠ .ok rs := by
  induction l with
  | nil => cases hx
  | cons y t ih =>
      intro rs hcon
      rw [exMapM_cons] at hcon
      cases hfy : f y with
      | error e => rw [hfy, exbind_err] at hcon; exact absurd hcon (by simp)
      | ok b =>
          rw [hfy, exbind_ok] at hcon
          cases hmt : exMapM f t with
          | error e => rw [hmt, exbind_err] at hcon; exact absurd hcon (by simp)
          | ok bs =>
              rcases List.mem_cons.mp hx with rfl | hxt
              · exact hf b hfy
              · exact ih hxt bs hmt

/-- C7 counterexample: on the same database and raw table, a one-row batch
normalizes fine, but adding one row with malformed `attributes` JSON makes
the whole normalization statement raise — no row of the batch is inserted,
instead of 1 skipped and the rest normalized. -/
theorem C7_counterexample :
    insert_normalized sampleDb [rawGb, rawBad] [] [stagedGb] = .ok ([rowGb], 1) ∧
    insert_normalized sampleDb [rawGb, rawBad] [] [stagedGb, stagedBadAttrs] =
      .error "invalid input syntax for type json" := by
  constructor
  · have h : insert_normalized sampleDb [rawGb, rawBad] [] [stagedGb] =
        .ok ([rowGbCast], 1) := rfl
    rw [h, rowGbCast_eq]
  · rfl

/-- C7 as amended: a row-level parse failure is not skipped — any staged batch
containing a row whose `attributes` text fails the JSON cast, and which
survives the joins with at least one priced element, makes the entire
normalization statement fail: no batch row is inserted and the error
propagates out of the statement. -/
theorem C7_malformed_row_aborts_batch (db : Db) (raws : List RawRow)
    (norm : List NormRow) (staged : List StagedRow) (s : StagedRow) (pj : Jsonb)
    (elems : List Jsonb) (pid sid rid cid : Nat)
    (hmem : s ∈ staged)
    (hbad : s.attributes = none)
    (hpj : s.prices = some pj)
    (helems : priceElems pj = .ok elems)
    (hpid : lookupByName db.providers (lowerStr s.vendorname) = some pid)
    (hsid : lookupScoped db.services pid s.service = some sid)
    (hrid : lookupScoped db.regions pid s.region = some rid)
    (hcid : lookupByName db.currencies "USD" = some cid)
    (husd : (elems.filter (fun e => (jgetText e "USD").isSome)) ≠ []) :
    ∀ res, insert_normalized db raws norm staged ≠ .ok res := by
  have hrow : ∀ r, normCandidatesOfRow db s ≠ .ok r := by
    intro r hcon
    unfold normCandidatesOfRow at hcon
    rw [hpj] at hcon
    simp only [exbind_ok] at hcon
    rw [helems] at hcon
    simp only [exbind_ok] at hcon
    rw [hpid] at hcon
    dsimp only at hcon
    rw [hsid, hrid, hcid] at hcon
    dsimp only at hcon
    obtain ⟨e0, t0, hsplit⟩ := List.exists_cons_of_ne_nil husd
    rw [hsplit, exMapM_cons] at hcon
    cases hms : mkStage1 db e0 with
    | error e =>
        rw [hms] at hcon
        simp only [exbind_err] at hcon
        exact absurd hcon (by simp)
    | ok s1 =>
        rw [hms] at hcon
        simp only [exbind_ok] at hcon
        unfold mkNormCandidate at hcon
        rw [hbad] at hcon
        simp only [exbind_err] at hcon
        exact absurd hcon (by simp)
  intro res hcon
  unfold insert_normalized at hcon
  cases hm : exMapM (normCandidatesOfRow db) staged with
  | error e =>
      rw [hm] at hcon
      simp only [exbind_err] at hcon
      exact absurd hcon (by simp)
  | ok cands => exact exMapM_err_of_mem (normCandidatesOfRow db) staged s hmem hrow cands hm

/-- C7 witness: the amended statement applied to the concrete two-row batch. -/
theorem C7_malformed_row_aborts_batch_witness :
    insert_normalized sampleDb [rawGb, rawBad] [] [stagedGb, stagedBadAttrs] ≠
      .ok ([], 0) :=
  C7_malformed_row_aborts_batch sampleDb [rawGb, rawBad] [] [stagedGb, stagedBadAttrs]
    stagedBadAttrs (pricesOf elemHrs) [elemHrs] 1 2 3 4
    (by simp) (by rfl) (by rfl) (by rfl) (by rfl) (by rfl) (by rfl) (by rfl)
    (by simp [jgetText, elemHrs, jlookup]) ([], 0)

/-- Evaluating the check-updates statement once the check rows are known. -/
theorem check_updates_eval (db : Db) (norm : List NormRow)
    (staged : List StagedRow) (crs : List CheckRow)
    (hcrs : checkRowsOfStaged db staged = .ok crs) :
    check_updates_normalized db norm staged =
      .ok (norm.map (updateNormRow crs),
           (changedOf norm crs).map (fun p => mkHistoryRow p.1 p.2),
           (norm.filter (fun d => crs.any (fun src => keysMatch d src))).length) := by
  unfold check_updates_normalized
  rw [hcrs]
  rfl

/-- SQL `<>` never fires on equal nullable prices. -/
theorem sqlNeq_self (a : Option Rat) : sqlNeqOptRat a a = false := by
  cases a with
  | none => rfl
  | some x => simp [sqlNeqOptRat]

/-- `sqlNeqOptRat` fires exactly on two present, different prices. -/
theorem sqlNeq_true_iff (a b : Option Rat) :
    sqlNeqOptRat a b = true ↔ ∃ o n, a = some o ∧ b = some n ∧ o ≠ n := by
  cases a with
  | none => simp [sqlNeqOptRat]
  | some x =>
      cases b with
      | none => simp [sqlNeqOptRat]
      | some y => simp [sqlNeqOptRat, bne_iff_ne]

/-- The update pass never changes the join-key columns. -/
theorem keysMatch_updateNormRow (crs : List CheckRow) (d : NormRow) (c : CheckRow) :
    keysMatch (updateNormRow crs d) c = keysMatch d c := by
  unfold updateNormRow
  cases h : crs.find? (fun src => keysMatch d src) with
  | none => rfl
  | some src => rfl

/-- The update pass never changes a row's id. -/
theorem id_updateNormRow (crs : List CheckRow) (d : NormRow) :
    (updateNormRow crs d).id = d.id := by
  unfold updateNormRow
  cases h : crs.find? (fun src => keysMatch d src) with
  | none => rfl
  | some src => rfl

/-- No changed pairs exist when every key match carries an equal price. -/
theorem changedOf_nil (norm : List NormRow) (crs : List CheckRow)
    (h : ∀ d ∈ norm, ∀ c ∈ crs, keysMatch d c = true →
      d.price_per_unit = c.price_per_unit) :
    changedOf norm crs = [] := by
  induction norm with
  | nil => rfl
  | cons d t ih =>
      show ((crs.filter (fun nw => keysMatch d nw &&
          sqlNeqOptRat d.price_per_unit nw.price_per_unit)).map (fun nw => (d, nw)))
        ++ changedOf t crs = []
      rw [List.append_eq_nil]
      constructor
      · rw [List.map_eq_nil_iff, List.filter_eq_nil_iff]
        intro c hc
        simp only [Bool.and_eq_true, not_and]
        intro hkm
        rw [h d (List.mem_cons_self d t) c hc hkm, sqlNeq_self]
        simp
      · exact ih (fun x hx => h x (List.mem_cons_of_mem d hx))

/-- If every key match carries an equal price, the update pass rewrites each
matched row's price with the same value, so the property is preserved. -/
theorem noChange_update (norm : List NormRow) (crs : List CheckRow)
    (h : ∀ d ∈ norm, ∀ c ∈ crs, keysMatch d c = true →
      d.price_per_unit = c.price_per_unit) :
    ∀ d1 ∈ norm.map (updateNormRow crs), ∀ c ∈ crs, keysMatch d1 c = true →
      d1.price_per_unit = c.price_per_unit := by
  intro d1 hd1 c hc hkm
  obtain ⟨d, hd, rfl⟩ := List.mem_map.mp hd1
  rw [keysMatch_updateNormRow] at hkm
  unfold updateNormRow
  cases hf : crs.find? (fun src => keysMatch d src) with
  | none => exact h d hd c hc hkm
  | some src =>
      have hsm : src ∈ crs := List.mem_of_find?_eq_some hf
      have hskm : keysMatch d src = true := by
        have := List.find?_some hf
        simpa using this
      have h1 := h d hd src hsm hskm
      have h2 := h d hd c hc hkm
      dsimp only
      rw [← h1, h2]

/-- Iterating the check-updates statement under unchanged prices accumulates
no history, for any number of runs. -/
theorem runCheckN_no_change (db : Db) (staged : List StagedRow)
    (crs : List CheckRow) (hcrs : checkRowsOfStaged db staged = .ok crs) :
    ∀ (n : Nat) (norm : List NormRow) (hist : List PriceHistoryRow),
      (∀ d ∈ norm, ∀ c ∈ crs, keysMatch d c = true →
        d.price_per_unit = c.price_per_unit) →
      Except.map Prod.snd (runCheckN db staged n norm hist) = .ok hist := by
  intro n
  induction n with
  | zero => intro norm hist _; rfl
  | succ n ih =>
      intro norm hist h
      unfold runCheckN
      rw [check_updates_eval db norm staged crs hcrs]
      simp only [exbind_ok]
      rw [changedOf_nil norm crs h]
      simp only [List.map_nil, List.append_nil]
      exact ih (norm.map (updateNormRow crs)) hist (noChange_update norm crs h)

/-- The changed-pair list distributes over appended table segments. -/
theorem changedOf_append (a b : List NormRow) (crs : List CheckRow) :
    changedOf (a ++ b) crs = changedOf a crs ++ changedOf b crs := by
  unfold changedOf
  rw [List.flatMap_append]

/-- A table segment none of whose rows matches a changed price contributes no
changed pairs. -/
theorem changedOf_nil_of_filters (a : List NormRow) (crs : List CheckRow)
    (h : ∀ d ∈ a, crs.filter (fun c => keysMatch d c &&
      sqlNeqOptRat d.price_per_unit c.price_per_unit) = []) :
    changedOf a crs = [] := by
  induction a with
  | nil => rfl
  | cons d t ih =>
      show ((crs.filter (fun nw => keysMatch d nw &&
          sqlNeqOptRat d.price_per_unit nw.price_per_unit)).map (fun nw => (d, nw)))
        ++ changedOf t crs = []
      rw [h d (List.mem_cons_self d t), List.map_nil, List.nil_append]
      exact ih (fun x hx => h x (List.mem_cons_of_mem d hx))

/-- C4. History fires only on a real price change. (i) Re-running the
check-updates statement any number of times over staged data whose prices
equal the table's prices on every key match inserts zero `price_history`
rows. (ii) A first-ever sighting — no key match at all — inserts none and
leaves the table untouched. (iii) A table in which exactly one row matches a
changed staged price, against exactly one staged check row, gets exactly one
history entry. -/
theorem C4_history_only_on_real_change :
    (∀ (db : Db) (staged : List StagedRow) (crs : List CheckRow) (n : Nat)
        (norm : List NormRow),
        checkRowsOfStaged db staged = .ok crs →
        (∀ d ∈ norm, ∀ c ∈ crs, keysMatch d c = true →
          d.price_per_unit = c.price_per_unit) →
        Except.map Prod.snd (runCheckN db staged n norm []) = .ok []) ∧
    (∀ (db : Db) (staged : List StagedRow) (crs : List CheckRow)
        (norm : List NormRow),
        checkRowsOfStaged db staged = .ok crs →
        (∀ d ∈ norm, ∀ c ∈ crs, keysMatch d c = false) →
        check_updates_normalized db norm staged = .ok (norm, [], 0)) ∧
    (∀ (db : Db) (staged : List StagedRow) (crs : List CheckRow)
        (normA normB : List NormRow) (old0 : NormRow) (cr0 : CheckRow),
        checkRowsOfStaged db staged = .ok crs →
        (∀ d ∈ normA, crs.filter (fun c => keysMatch d c &&
          sqlNeqOptRat d.price_per_unit c.price_per_unit) = []) →
        (∀ d ∈ normB, crs.filter (fun c => keysMatch d c &&
          sqlNeqOptRat d.price_per_unit c.price_per_unit) = []) →
        crs.filter (fun c => keysMatch old0 c &&
          sqlNeqOptRat old0.price_per_unit c.price_per_unit) = [cr0] →
        Except.map (fun r => r.2.1)
          (check_updates_normalized db (normA ++ old0 :: normB) staged) =
          .ok [mkHistoryRow old0 cr0]) := by
  refine ⟨?_, ?_, ?_⟩
  · intro db staged crs n norm hcrs h
    exact runCheckN_no_change db staged crs hcrs n norm [] h
  · intro db staged crs norm hcrs h
    rw [check_updates_eval db norm staged crs hcrs]
    have hmap : norm.map (updateNormRow crs) = norm := by
      rw [List.map_congr_left (g := id), List.map_id]
      intro d hd
      unfold updateNormRow
      have hfind : crs.find? (fun src => keysMatch d src) = none :=
        List.find?_eq_none.mpr (fun c hc => by simp [h d hd c hc])
      rw [hfind]
      rfl
    have hchg : changedOf norm crs = [] :=
      changedOf_nil norm crs (fun d hd c hc hkm => absurd hkm (by simp [h d hd c hc]))
    have hcnt : norm.filter (fun d => crs.any (fun src => keysMatch d src)) = [] := by
      rw [List.filter_eq_nil_iff]
      intro d hd
      simp only [List.any_eq_true, not_exists, not_and]
      intro c hc
      simp [h d hd c hc]
    rw [hmap, hchg, hcnt]
    rfl
  · intro db staged crs normA normB old0 cr0 hcrs hA hB h0
    rw [check_updates_eval db (normA ++ old0 :: normB) staged crs hcrs]
    have hchg : changedOf (normA ++ old0 :: normB) crs = [(old0, cr0)] := by
      rw [changedOf_append, changedOf_nil_of_filters normA crs hA]
      show [] ++ (((crs.filter (fun nw => keysMatch old0 nw &&
          sqlNeqOptRat old0.price_per_unit nw.price_per_unit)).map
            (fun nw => (old0, nw))) ++ changedOf normB crs) = [(old0, cr0)]
      rw [h0, changedOf_nil_of_filters normB crs hB]
      rfl
    rw [hchg]
    rfl

/-- C4 witness: scenario D — one active row at 0.10, one staged check row at
0.12 for the same key — yields exactly one history entry. -/
theorem C4_history_only_on_real_change_witness :
    Except.map (fun r => r.2.1)
        (check_updates_normalized sampleDb [oldRow10] [stagedGb12]) =
      .ok [mkHistoryRow oldRow10 crGb12] := by
  have hneq : sqlNeqOptRat oldRow10.price_per_unit crGb12.price_per_unit = true := by
    rw [sqlNeq_true_iff]
    exact ⟨1 / 10, ((12 : Nat) : Rat) / ((100 : Nat) : Rat), rfl, rfl, by norm_num⟩
  have hpa : (keysMatch oldRow10 crGb12 &&
      sqlNeqOptRat oldRow10.price_per_unit crGb12.price_per_unit) = true := by
    rw [hneq, Bool.and_true]
    rfl
  have h0 : [crGb12].filter (fun c => keysMatch oldRow10 c &&
      sqlNeqOptRat oldRow10.price_per_unit c.price_per_unit) = [crGb12] := by
    simp only [List.filter_cons, List.filter_nil, hpa, if_true]
  exact C4_history_only_on_real_change.2.2 sampleDb [stagedGb12] [crGb12] [] []
    oldRow10 crGb12 (by rfl) (by simp) (by simp) h0

/-- C5. For every history entry the check-updates statement inserts, the
entry belongs to a matched (old row, check row) pair with present prices
`o ≠ n`, records the new price, and records
`ROUND((n - o) / o * 100, 2)` as the change percentage — NULL when `o = 0`.
The second conjunct runs scenario D concretely: a move from 0.10 to 0.12
records exactly one entry with change percentage 20. -/
theorem C5_change_percentage_formula :
    (∀ (db : Db) (staged : List StagedRow) (crs : List CheckRow)
        (norm norm1 : List NormRow) (hist : List PriceHistoryRow) (cnt : Nat),
        checkRowsOfStaged db staged = .ok crs →
        check_updates_normalized db norm staged = .ok (norm1, hist, cnt) →
        ∀ e ∈ hist, ∃ old nw o n, old ∈ norm ∧ nw ∈ crs ∧
          keysMatch old nw = true ∧ old.price_per_unit = some o ∧
          nw.price_per_unit = some n ∧ o ≠ n ∧
          e.pricing_data_id = old.id ∧ e.price_per_unit = some n ∧
          e.change_percentage =
            (if o = 0 then none else some (round2 ((n - o) / o * 100)))) ∧
    Except.map (fun r => r.2.1)
        (check_updates_normalized sampleDb [oldRow10] [stagedGb12]) =
      .ok [{ pricing_data_id := 0, price_per_unit := some (0.12 : Rat),
             change_percentage := some 20 }] := by
  constructor
  · intro db staged crs norm norm1 hist cnt hcrs hrun e he
    rw [check_updates_eval db norm staged crs hcrs] at hrun
    have hhist : hist = (changedOf norm crs).map (fun p => mkHistoryRow p.1 p.2) := by
      cases hrun
      rfl
    rw [hhist] at he
    obtain ⟨⟨old, nw⟩, hpair, rfl⟩ := List.mem_map.mp he
    unfold changedOf at hpair
    obtain ⟨old1, hold1, hmem⟩ := List.mem_flatMap.mp hpair
    obtain ⟨nw1, hnw1, heq⟩ := List.mem_map.mp hmem
    obtain ⟨hnwmem, hp⟩ := List.mem_filter.mp hnw1
    cases heq
    rw [Bool.and_eq_true] at hp
    obtain ⟨hkm, hneq⟩ := hp
    obtain ⟨o, n, ho, hn, hone⟩ := (sqlNeq_true_iff _ _).mp hneq
    refine ⟨old, nw, o, n, hold1, hnwmem, hkm, ho, hn, hone, rfl, ?_, ?_⟩
    · unfold mkHistoryRow
      rw [hn]
    · unfold mkHistoryRow
      rw [ho, hn]
  · have hneq : sqlNeqOptRat oldRow10.price_per_unit crGb12.price_per_unit = true := by
      rw [sqlNeq_true_iff]
      exact ⟨1 / 10, ((12 : Nat) : Rat) / ((100 : Nat) : Rat), rfl, rfl, by norm_num⟩
    have hpa : (keysMatch oldRow10 crGb12 &&
        sqlNeqOptRat oldRow10.price_per_unit crGb12.price_per_unit) = true := by
      rw [hneq, Bool.and_true]
      rfl
    rw [check_updates_eval sampleDb [oldRow10] [stagedGb12] [crGb12] (by rfl)]
    have hchg : changedOf [oldRow10] [crGb12] = [(oldRow10, crGb12)] := by
      show (([crGb12].filter (fun nw => keysMatch oldRow10 nw &&
          sqlNeqOptRat oldRow10.price_per_unit nw.price_per_unit)).map
            (fun nw => (oldRow10, nw))) ++ [] = [(oldRow10, crGb12)]
      simp only [List.filter_cons, List.filter_nil, hpa, if_true,
        List.map_cons, List.map_nil, List.append_nil]
    rw [hchg]
    simp only [List.map_cons, List.map_nil]
    have hrow : mkHistoryRow oldRow10 crGb12 =
        { pricing_data_id := 0, price_per_unit := some (0.12 : Rat),
          change_percentage := some 20 } := by
      unfold mkHistoryRow
      have ho : oldRow10.price_per_unit = some ((1 : Rat) / 10) := rfl
      have hn : crGb12.price_per_unit =
          some (((12 : Nat) : Rat) / ((100 : Nat) : Rat)) := rfl
      rw [ho, hn]
      have hnz : ¬((1 : Rat) / 10 = 0) := by norm_num
      simp only [if_neg hnz]
      have hval : round2 ((((12 : Nat) : Rat) / ((100 : Nat) : Rat) - 1 / 10) /
          (1 / 10) * 100) = 20 := by
        have harg : ((((12 : Nat) : Rat) / ((100 : Nat) : Rat) - 1 / 10) /
            (1 / 10) * 100) = 20 := by norm_num
        rw [harg]
        unfold round2
        rw [if_pos (by norm_num)]
        norm_num
      rw [hval]
      have hpn : (((12 : Nat) : Rat) / ((100 : Nat) : Rat)) = (0.12 : Rat) := by norm_num
      rw [hpn]
      rfl
    rw [hrow]
    rfl

/-- C5 witness: scenario D concretely — the price move from 0.10 to 0.12
records one entry with change percentage 20. -/
theorem C5_change_percentage_formula_witness :
    Except.map (fun r => r.2.1)
        (check_updates_normalized sampleDb [oldRow10] [stagedGb12]) =
      .ok [{ pricing_data_id := 0, price_per_unit := some (0.12 : Rat),
             change_percentage := some 20 }] :=
  C5_change_percentage_formula.2
